import Mathlib

/-!
Shallow embedding of the flight-route planner (`самолеты.py`):
a graph of cities, a plane profile, an edge-cost evaluator with wind
multipliers, and an A*-style search over (city, remaining fuel) states
using a binary heap frontier with Python tuple comparison semantics.

Python floats are embedded as exact rationals (`ℚ`); Python `int` values
as `ℤ`/`ℕ`.  Python runtime exceptions that the source can actually raise
(`TypeError` from comparing `City` objects in the heap, `ZeroDivisionError`
from a zero effective speed, `ValueError`/`IndexError`) are modelled as an
explicit error type threaded through `Except`.  The transcendental core of
the haversine formula (sin/cos/atan2/sqrt on float radians) is not
representable as an executable exact function; it is embedded as an
uninterpreted rational-valued field `hav` of the planner, and the integer
ceiling applied by the source on its result is kept explicit.
-/

/-- A city node: name, coordinates, fuel-availability flag.
Python `City.__eq__`/`__hash__` compare by `name` alone. -/
structure City where
  name : String
  lat : ℚ
  lon : ℚ
  has_fuel : Bool
deriving DecidableEq, Repr

/-- Python `City.__eq__`: equality is by name alone. -/
def cityEq (c1 c2 : City) : Bool := c1.name == c2.name

/-- An undirected edge with distance (km), wind flags and closure flag. -/
structure Edge where
  city1 : City
  city2 : City
  distance_km : ℚ
  headwind : Bool
  fairwind : Bool
  closed : Bool
deriving DecidableEq, Repr

/-- The aircraft profile: tank capacity (L, int), baseline consumption
(L/km, float) and baseline cruise speed (km/h, int). -/
structure Plane where
  tank_capacity : ℤ
  fuel_consumption : ℚ
  cruise_speed : ℤ
deriving DecidableEq, Repr

/-- The graph: `cities` is the dict keyed by name (modelled as a list in
insertion order, lookup by name), `edges` the appended edge list. -/
structure Graph where
  cities : List City
  edges : List Edge
deriving DecidableEq, Repr

/-- Python dict assignment `self.cities[city.name] = city`:
last write wins on a name collision. -/
def add_city (g : Graph) (c : City) : Graph :=
  if g.cities.any (fun x => x.name == c.name) then
    { g with cities := g.cities.map (fun x => if x.name == c.name then c else x) }
  else
    { g with cities := g.cities ++ [c] }

/-- `self.edges.append(edge)`. -/
def add_edge (g : Graph) (e : Edge) : Graph :=
  { g with edges := g.edges ++ [e] }

/-- Dict lookup `self.cities[name]` / membership `name in self.cities`. -/
def findCity (g : Graph) (name : String) : Option City :=
  g.cities.find? (fun c => c.name == name)

/-- `get_edges_from_city`: linear scan keeping every edge touching `city`
(comparison by Python `City.__eq__`, i.e. by name). -/
def get_edges_from_city (g : Graph) (city : City) : List Edge :=
  g.edges.filter (fun e => cityEq e.city1 city || cityEq e.city2 city)

/-- Python runtime exceptions the planner can actually raise. -/
inductive PyErr where
  | typeError
  | zeroDivisionError
  | valueError
  | indexError
deriving DecidableEq, Repr

deriving instance DecidableEq for Except

/-- `Edge.get_other_city`: the opposite endpoint, or a `ValueError` when
the edge does not touch the given city. -/
def get_other_city (e : Edge) (c : City) : Except PyErr City :=
  if cityEq c e.city1 then .ok e.city2
  else if cityEq c e.city2 then .ok e.city1
  else .error .valueError

/-- Python `int(x)` on a float: truncation toward zero. -/
def truncInt (q : ℚ) : ℤ := if 0 ≤ q then ⌊q⌋ else ⌈q⌉

/-- `math.ceil(time_hours * 10) / 10`: ceiling at 0.1-hour granularity. -/
def ceil10 (t : ℚ) : ℚ := ((⌈t * 10⌉ : ℤ) : ℚ) / 10

/-- Python `round(x)`: round half to even, to an integer. -/
def pyRoundInt (q : ℚ) : ℤ :=
  let n := ⌊q⌋
  let f := q - (n : ℚ)
  if f < 1/2 then n
  else if 1/2 < f then n + 1
  else if 2 ∣ n then n else n + 1

/-- Python `round(x, 2)`: round half to even at two decimals. -/
def round2 (q : ℚ) : ℚ := ((pyRoundInt (q * 100) : ℤ) : ℚ) / 100

/-- Result of `calculate_edge_time_and_fuel`: the `(inf, 0)` sentinel or a
feasible `(time_hours, fuel_consumed)` pair. -/
inductive EdgeCost where
  | infeasible
  | feasible (time : ℚ) (fuel : ℤ)
deriving DecidableEq, Repr

/-- `RoutePlanner.calculate_edge_time_and_fuel`.  A closed edge yields the
infinity sentinel; wind flags select the speed/consumption multipliers
(the `elif` gives `headwind` precedence); the division
`distance / effective_speed` raises `ZeroDivisionError` when the
effective speed is zero (this happens before the fuel check, as in the
source); a fuel need exceeding the current fuel yields the sentinel;
otherwise the time is ceiled to 0.1 h and the fuel truncated to int. -/
def calculate_edge_time_and_fuel (plane : Plane) (edge : Edge) (current_fuel : ℤ) :
    Except PyErr EdgeCost :=
  if edge.closed then .ok .infeasible
  else
    let speed_multiplier : ℚ := if edge.headwind then 8/10 else if edge.fairwind then 11/10 else 1
    let fuel_multiplier : ℚ := if edge.headwind then 12/10 else if edge.fairwind then 9/10 else 1
    let effective_speed : ℚ := (plane.cruise_speed : ℚ) * speed_multiplier
    let effective_consumption : ℚ := plane.fuel_consumption * fuel_multiplier
    if effective_speed = 0 then .error .zeroDivisionError
    else
      let time_hours : ℚ := edge.distance_km / effective_speed
      let fuel_needed : ℚ := edge.distance_km * effective_consumption
      if fuel_needed > (current_fuel : ℚ) then .ok .infeasible
      else .ok (.feasible (ceil10 time_hours) (truncInt fuel_needed))

/-- A frontier entry: the tuple
`(f_score, g_score, city, fuel, path, refuel_count)` pushed on the heap. -/
structure Entry where
  f : ℚ
  g : ℚ
  city : City
  fuel : ℤ
  path : List City
  rc : ℕ
deriving DecidableEq, Repr

/-- Placeholder used for out-of-range list reads inside the heap code
(all such reads are in range along the executed paths). -/
def defaultEntry : Entry := ⟨0, 0, ⟨"", 0, 0, false⟩, 0, [], 0⟩

/-- Python `==` on two lists of `City`: lengths equal and elementwise
name equality. -/
def listCityEq (p q : List City) : Bool :=
  p.length == q.length && (p.zip q).all (fun pr => cityEq pr.1 pr.2)

/-- Python `<` on two lists of `City`: at the first name-differing pair a
`City < City` comparison is attempted, which raises `TypeError`; a strict
prefix is smaller. -/
def pyLtPath : List City → List City → Except PyErr Bool
  | [], [] => .ok false
  | [], _ :: _ => .ok true
  | _ :: _, [] => .ok false
  | a :: p, b :: q => if cityEq a b then pyLtPath p q else .error .typeError

/-- Python `<` on two frontier tuples: lexicographic, testing `==` per
component and applying `<` at the first mismatch.  Comparing two distinct
`City` values (directly, or inside the path lists) raises `TypeError`. -/
def entryLt (e1 e2 : Entry) : Except PyErr Bool :=
  if e1.f ≠ e2.f then .ok (decide (e1.f < e2.f))
  else if e1.g ≠ e2.g then .ok (decide (e1.g < e2.g))
  else if ¬ (cityEq e1.city e2.city = true) then .error .typeError
  else if e1.fuel ≠ e2.fuel then .ok (decide (e1.fuel < e2.fuel))
  else if ¬ (listCityEq e1.path e2.path = true) then pyLtPath e1.path e2.path
  else if e1.rc ≠ e2.rc then .ok (decide (e1.rc < e2.rc))
  else .ok false

/-- `heapq._siftdown(heap, startpos, pos)` with `newitem` conceptually at
`pos`: walk up the ancestor chain moving parents down while `newitem`
compares smaller, then place `newitem`.  The loop strictly decreases
`pos`, so a structural fuel of `pos + 1` makes the recursion total without
changing the computed value. -/
def siftdownLoop : ℕ → List Entry → ℕ → ℕ → Entry → Except PyErr (List Entry)
  | 0, heap, _, pos, newitem => .ok (heap.set pos newitem)
  | fuel + 1, heap, startpos, pos, newitem =>
    if pos > startpos then
      let parentpos := (pos - 1) / 2
      let parent := heap.getD parentpos defaultEntry
      match entryLt newitem parent with
      | .error e => .error e
      | .ok true => siftdownLoop fuel (heap.set pos parent) startpos parentpos newitem
      | .ok false => .ok (heap.set pos newitem)
    else .ok (heap.set pos newitem)

/-- `heapq.heappush`: append then sift down from the last position. -/
def heappush (heap : List Entry) (item : Entry) : Except PyErr (List Entry) :=
  siftdownLoop (heap.length + 1) (heap ++ [item]) 0 heap.length item

/-- The child-selection step of `heapq._siftup`:
`if rightpos < endpos and not heap[childpos] < heap[rightpos]:
childpos = rightpos` (the comparison can raise `TypeError`). -/
def pickChild (heap : List Entry) (endpos childpos : ℕ) : Except PyErr ℕ :=
  if childpos + 1 < endpos then
    match entryLt (heap.getD childpos defaultEntry) (heap.getD (childpos + 1) defaultEntry) with
    | .error e => .error e
    | .ok b => .ok (if ¬ (b = true) then childpos + 1 else childpos)
  else .ok childpos

/-- `heapq._siftup(heap, pos)` with `newitem` conceptually at `pos`:
bubble the smaller child up until a leaf, then sift the item down.  The
loop at least doubles `pos` while it stays below `endpos`, so a structural
fuel of `endpos + 1` makes the recursion total without changing the
computed value. -/
def siftupLoop : ℕ → List Entry → ℕ → ℕ → ℕ → Entry → Except PyErr (List Entry)
  | 0, heap, _, _, pos, newitem => .ok (heap.set pos newitem)
  | fuel + 1, heap, startpos, endpos, pos, newitem =>
    let childpos := 2 * pos + 1
    if childpos < endpos then
      match pickChild heap endpos childpos with
      | .error e => .error e
      | .ok childpos' =>
        siftupLoop fuel (heap.set pos (heap.getD childpos' defaultEntry))
          startpos endpos childpos' newitem
    else
      siftdownLoop (pos + 1) heap startpos pos newitem

/-- `heapq.heappop`: pop the last element; if the heap is still nonempty,
take the root as return value, move the last element to the root and sift
it up.  Called on an empty heap this raises `IndexError` (never reached:
the search loop guards on a nonempty frontier). -/
def heappop (heap : List Entry) : Except PyErr (Entry × List Entry) :=
  match heap with
  | [] => .error .indexError
  | _ :: _ =>
    let lastelt := heap.getLastD defaultEntry
    let rest := heap.dropLast
    match rest with
    | [] => .ok (lastelt, [])
    | _ :: _ =>
      let returnitem := rest.getD 0 defaultEntry
      let heap2 := rest.set 0 lastelt
      match siftupLoop (rest.length + 1) heap2 0 rest.length 0 lastelt with
      | .error e => .error e
      | .ok heap3 => .ok (returnitem, heap3)

/-- The planner bound to a graph and a plane.  `hav` is the uninterpreted
transcendental core of `haversine_distance`: the exact value
`R * c` (radius 6371 km times the central angle from the haversine
formula) as a rational, before the integer ceiling the source applies. -/
structure RoutePlanner where
  graph : Graph
  plane : Plane
  hav : City → City → ℚ

/-- `RoutePlanner.haversine_distance`: `math.ceil` of the spherical
great-circle distance (whose trigonometric core is the `hav` field). -/
def haversine_distance (p : RoutePlanner) (c1 c2 : City) : ℤ :=
  ⌈p.hav c1 c2⌉

/-- The itinerary dictionary built by `_build_result`. -/
structure RouteResult where
  route : List String
  total_time : ℚ
  refuel_stops : List String
  total_distance : ℤ
  refuel_count : ℕ
deriving DecidableEq, Repr

/-- Outcome of a call to `a_star_search` (run with a recursion bound
`gas` on the number of loop iterations; `outOfGas` marks an exhausted
bound, never an outcome of the Python code). -/
inductive SearchResult where
  | ok (r : RouteResult)
  | errCityNotFound
  | errNoPathFound
  | pyError (e : PyErr)
  | outOfGas
deriving DecidableEq, Repr

/-- The inner `for` loop of `_build_result` computing `total_distance`:
for each consecutive pair, add the distance of the first edge in
declaration order matching the pair (in either orientation); `break`
after the first match, add nothing if none matches. -/
def buildDistLoop (edges : List Edge) : List City → ℚ
  | c1 :: c2 :: rest =>
    (match edges.find? (fun e =>
        (cityEq e.city1 c1 && cityEq e.city2 c2) ||
        (cityEq e.city1 c2 && cityEq e.city2 c1)) with
     | some e => e.distance_km
     | none => 0) + buildDistLoop edges (c2 :: rest)
  | _ => 0

/-- `RoutePlanner._build_result`: route names, total time rounded to two
decimals, refuel stops = fuel-capable cities of the path except the last,
total distance re-walked from the path and rounded, and the branch's
refuel counter. -/
def build_result (p : RoutePlanner) (path : List City) (total_time : ℚ)
    (refuel_count : ℕ) : RouteResult :=
  { route := path.map (·.name)
  , total_time := round2 total_time
  , refuel_stops := (path.dropLast.filter (·.has_fuel)).map (·.name)
  , total_distance := pyRoundInt (buildDistLoop p.graph.edges path)
  , refuel_count := refuel_count }

/-- The `visited` dict: keys are `(city, fuel)` — `City` hashes and
compares by name, so the key is modelled as `(name, fuel)` — mapping to
the best recorded `g`. -/
abbrev VisitedMap := List ((String × ℤ) × ℚ)

/-- Dict lookup `visited[key]` / `key in visited`. -/
def visLookup (vis : VisitedMap) (k : String × ℤ) : Option ℚ :=
  (vis.find? (fun pr => pr.1 = k)).map (·.2)

/-- Dict assignment `visited[key] = g`: replace if present, else append. -/
def visInsert (vis : VisitedMap) (k : String × ℤ) (v : ℚ) : VisitedMap :=
  if vis.any (fun pr => pr.1 = k) then
    vis.map (fun pr => if pr.1 = k then (k, v) else pr)
  else vis ++ [(k, v)]

/-- The state update of one accepted transition, after the edge evaluator
returned `(time, fuel_consumed)`: subtract the consumed fuel (the
source's `math.floor(new_fuel)` is the identity on an integer), add the
time, then apply the mandatory refuel when the destination has fuel and
the tank is not full: +0.5 h, fuel := capacity, counter + 1. -/
def transition (plane : Plane) (next_city : City) (time : ℚ) (fuel_consumed : ℤ)
    (g : ℚ) (fuel : ℤ) (rc : ℕ) : ℚ × ℤ × ℕ :=
  let new_fuel := fuel - fuel_consumed
  let new_g := g + time
  if next_city.has_fuel = true ∧ new_fuel < plane.tank_capacity then
    (new_g + 1/2, plane.tank_capacity, rc + 1)
  else
    (new_g, new_fuel, rc)

/-- The heuristic value `h_score` the search computes for a city:
`haversine_distance(city, target) / cruise_speed`, the baseline cruise
speed with no wind multiplier. -/
def hScoreOf (p : RoutePlanner) (c target : City) : ℚ :=
  ((haversine_distance p c target : ℤ) : ℚ) / ((p.plane.cruise_speed : ℤ) : ℚ)

/-- The frontier entry pushed for one accepted transition of `cur` along
an edge with feasible cost `(time, fuel_consumed)` toward `next_city`:
`(f = new_g + h, new_g, next_city, new_fuel, path + [next_city], new_rc)`. -/
def expansionEntry (p : RoutePlanner) (target : City) (cur : Entry) (next_city : City)
    (time : ℚ) (fuel_consumed : ℤ) : Entry :=
  let t := transition p.plane next_city time fuel_consumed cur.g cur.fuel cur.rc
  ⟨t.1 + hScoreOf p next_city target, t.1, next_city, t.2.1,
   cur.path ++ [next_city], t.2.2⟩

/-- The `for edge in ...` loop of one expansion: evaluate each edge,
skip infeasible ones, apply `transition`, filter through `visited`,
record the admitted state and push it with `f = new_g + h`.
(The division by `cruise_speed` in the heuristic cannot raise here: a
feasible edge cost implies a nonzero effective speed.) -/
def processEdges (p : RoutePlanner) (target : City) (cur : Entry) :
    List Edge → List Entry → VisitedMap → Except PyErr (List Entry × VisitedMap)
  | [], os, vis => .ok (os, vis)
  | edge :: rest, os, vis =>
    match get_other_city edge cur.city with
    | .error e => .error e
    | .ok next_city =>
      match calculate_edge_time_and_fuel p.plane edge cur.fuel with
      | .error e => .error e
      | .ok .infeasible => processEdges p target cur rest os vis
      | .ok (.feasible time fuel_consumed) =>
        let t := transition p.plane next_city time fuel_consumed cur.g cur.fuel cur.rc
        let new_g := t.1
        let new_fuel := t.2.1
        let key := (next_city.name, new_fuel)
        if ((visLookup vis key).map (fun g0 => decide (g0 ≤ new_g))).getD false then
          processEdges p target cur rest os vis
        else
          let vis' := visInsert vis key new_g
          match heappush os (expansionEntry p target cur next_city time fuel_consumed) with
          | .error e => .error e
          | .ok os' => processEdges p target cur rest os' vis'

/-- Outcome of one iteration of the `while open_set:` loop. -/
inductive StepRes where
  | done (r : SearchResult)
  | cont (os : List Entry) (vis : VisitedMap)
  | fail (e : PyErr)

/-- One iteration of the search loop: an empty frontier ends with
"No path found"; otherwise pop the minimum, stop at the target, else
expand every touching edge. -/
def searchStep (p : RoutePlanner) (target : City) (os : List Entry)
    (vis : VisitedMap) : StepRes :=
  match os with
  | [] => .done .errNoPathFound
  | _ :: _ =>
    match heappop os with
    | .error e => .fail e
    | .ok (cur, os') =>
      if cityEq cur.city target then
        .done (.ok (build_result p cur.path cur.g cur.rc))
      else
        match processEdges p target cur (get_edges_from_city p.graph cur.city) os' vis with
        | .error e => .fail e
        | .ok (os'', vis') => .cont os'' vis'

/-- The `while open_set:` loop, bounded by `gas` iterations. -/
def searchLoop (p : RoutePlanner) (target : City) : ℕ → List Entry → VisitedMap → SearchResult
  | 0, _, _ => .outOfGas
  | gas + 1, os, vis =>
    match searchStep p target os vis with
    | .done r => r
    | .fail e => .pyError e
    | .cont os' vis' => searchLoop p target gas os' vis'

/-- The initial frontier and visited map of `a_star_search`: one entry at
the start city with a full tank, `g = 0` and `f = h(start)`. -/
def initState (p : RoutePlanner) (start_city target_city : City) :
    List Entry × VisitedMap :=
  let initial_fuel := p.plane.tank_capacity
  let g : ℚ := 0
  let h : ℚ := hScoreOf p start_city target_city
  ([⟨g + h, g, start_city, initial_fuel, [start_city], 0⟩],
   [((start_city.name, initial_fuel), g)])

/-- `RoutePlanner.a_star_search`: name lookups first ("City not found" if
either is absent), then the initial heuristic (an integer division that
raises `ZeroDivisionError` when `cruise_speed` is zero), then the loop. -/
def a_star_search (p : RoutePlanner) (start_city_name target_city_name : String)
    (gas : ℕ) : SearchResult :=
  match findCity p.graph start_city_name, findCity p.graph target_city_name with
  | some start_city, some target_city =>
    if p.plane.cruise_speed = 0 then .pyError .zeroDivisionError
    else
      let st := initState p start_city target_city
      searchLoop p target_city gas st.1 st.2
  | _, _ => .errCityNotFound

/-- The cities of `create_test_graph`. -/
def moscow : City := ⟨"Moscow", 557558/10000, 376173/10000, true⟩

def spb : City := ⟨"St Petersburg", 599343/10000, 303351/10000, true⟩

def kazan : City := ⟨"Kazan", 558304/10000, 490661/10000, true⟩

def sochi : City := ⟨"Sochi", 435855/10000, 397231/10000, false⟩

def samara : City := ⟨"Samara", 531959/10000, 501002/10000, true⟩

/-- `create_test_graph`: the 5-city demonstration topology. -/
def create_test_graph : Graph :=
  let g : Graph := ⟨[], []⟩
  let g := add_city g moscow
  let g := add_city g spb
  let g := add_city g kazan
  let g := add_city g sochi
  let g := add_city g samara
  let g := add_edge g ⟨moscow, spb, 650, false, true, false⟩
  let g := add_edge g ⟨moscow, kazan, 720, false, false, false⟩
  let g := add_edge g ⟨moscow, sochi, 1360, true, false, false⟩
  let g := add_edge g ⟨kazan, samara, 450, false, false, false⟩
  let g := add_edge g ⟨spb, kazan, 1150, false, false, true⟩
  let g := add_edge g ⟨samara, sochi, 1250, false, false, false⟩
  g

/-- The demonstration plane of `main()`. -/
def demoPlane : Plane := ⟨16000, 27/10, 841⟩

/-- Modelled from the spec: the transcendental haversine core on the
demonstration cities.  The exact float computation of the source gives
1361.569… km Moscow→Sochi, 1924.857… km St Petersburg→Sochi,
1515.171… km Kazan→Sochi, 1312.081… km Samara→Sochi and 0 km
Sochi→Sochi; these rational stand-ins have the same integer ceilings
(1362, 1925, 1516, 1313, 0), which is all `haversine_distance`
passes on. -/
def demoHav (c1 c2 : City) : ℚ :=
  if c1.name = "Moscow" ∧ c2.name = "Sochi" then 1362
  else if c1.name = "St Petersburg" ∧ c2.name = "Sochi" then 1925
  else if c1.name = "Kazan" ∧ c2.name = "Sochi" then 1516
  else if c1.name = "Samara" ∧ c2.name = "Sochi" then 1313
  else 0

/-- The demonstration planner of `main()`. -/
def demoPlanner : RoutePlanner := ⟨create_test_graph, demoPlane, demoHav⟩

/-- Three cities at identical coordinates (so every pairwise great-circle
distance is exactly 0), used to exhibit the frontier tie. -/
def tieS : City := ⟨"S", 10, 20, false⟩

def tieA : City := ⟨"A", 10, 20, false⟩

def tieB : City := ⟨"B", 10, 20, false⟩

/-- A topology with two symmetric open connections S–A and S–B of equal
distance and no wind: expanding S pushes two entries tying on both `f`
and `g`, so the heap compares the two `City` values. -/
def tieGraph : Graph :=
  let g : Graph := ⟨[], []⟩
  let g := add_city g tieS
  let g := add_city g tieA
  let g := add_city g tieB
  let g := add_edge g ⟨tieS, tieA, 100, false, false, false⟩
  let g := add_edge g ⟨tieS, tieB, 100, false, false, false⟩
  g

/-- Planner over `tieGraph`; all cities coincide, so the haversine core
is identically 0, which `fun _ _ => 0` renders exactly. -/
def tiePlanner : RoutePlanner := ⟨tieGraph, ⟨1000, 1, 100⟩, fun _ _ => 0⟩

/-- Two cities joined only by a closed connection. -/
def closedGraph : Graph :=
  let g : Graph := ⟨[], []⟩
  let g := add_city g tieS
  let g := add_city g tieA
  let g := add_edge g ⟨tieS, tieA, 100, false, false, true⟩
  g

def closedPlanner : RoutePlanner := ⟨closedGraph, ⟨1000, 1, 100⟩, fun _ _ => 0⟩

/-- Two cities joined by one open connection whose fuel need
`d * c = 100` exceeds the tank capacity 50. -/
def lowFuelGraph : Graph :=
  let g : Graph := ⟨[], []⟩
  let g := add_city g tieS
  let g := add_city g tieA
  let g := add_edge g ⟨tieS, tieA, 100, false, false, false⟩
  g

def lowFuelPlanner : RoutePlanner := ⟨lowFuelGraph, ⟨50, 1, 100⟩, fun _ _ => 0⟩

/-- An open, windless connection used for the evaluator edge cases. -/
def plainEdge : Edge := ⟨tieS, tieA, 100, false, false, false⟩

/-- The demonstration headwind edge Moscow–Sochi, witness input. -/
def hwEdge : Edge := ⟨moscow, sochi, 1360, true, false, false⟩

/-- An edge with both wind flags raised, witness input. -/
def bothEdge : Edge := ⟨tieS, tieA, 100, true, true, false⟩

/-- A small witness plane: tank 1000 L, consumption 1 L/km, speed 100. -/
def wPlane : Plane := ⟨1000, 1, 100⟩

/-- Spec-side description of the recomputed total distance: walk the
consecutive location pairs of the path and sum, for each pair, the
distance of the first matching connection in declaration order (0 when
none matches). -/
def specTotalDistance (edges : List Edge) (path : List City) : ℚ :=
  ((path.zip path.tail).map (fun pr =>
    match edges.find? (fun e =>
        (cityEq e.city1 pr.1 && cityEq e.city2 pr.2) ||
        (cityEq e.city1 pr.2 && cityEq e.city2 pr.1)) with
    | some e => e.distance_km
    | none => 0)).sum

/-- `x` is an entry the expansion of `cur` can push: it arises from some
graph edge whose evaluated cost was feasible at `cur`'s fuel level. -/
def isExpansionOf (p : RoutePlanner) (target : City) (cur x : Entry) : Prop :=
  ∃ edge ∈ p.graph.edges, ∃ next_city time fuel_consumed,
    get_other_city edge cur.city = .ok next_city ∧
    calculate_edge_time_and_fuel p.plane edge cur.fuel = .ok (.feasible time fuel_consumed) ∧
    x = expansionEntry p target cur next_city time fuel_consumed

/-- One iteration of the `while` loop as a relation on
(frontier, visited) states. -/
def SearchStepRel (p : RoutePlanner) (target : City)
    (s s' : List Entry × VisitedMap) : Prop :=
  searchStep p target s.1 s.2 = .cont s'.1 s'.2

/-- `s` is a loop state the search can reach from `s0`. -/
def ReachableFrom (p : RoutePlanner) (target : City)
    (s0 s : List Entry × VisitedMap) : Prop :=
  Relation.ReflTransGen (SearchStepRel p target) s0 s

/-- An in-range `getD` read returns a member of the list. -/
lemma getD_mem_of_lt (l : List Entry) (n : ℕ) (d : Entry) (h : n < l.length) :
    l.getD n d ∈ l := by
  rw [List.getD_eq_getElem?_getD, List.getElem?_eq_getElem h]
  exact List.getElem_mem h

/-- Every element of the list produced by `siftdownLoop` was already in
the input heap or is the sifted item. -/
lemma siftdownLoop_mem (fuel : ℕ) :
    ∀ (heap : List Entry) (startpos pos : ℕ) (item : Entry) (out : List Entry),
      siftdownLoop fuel heap startpos pos item = .ok out →
      ∀ x ∈ out, x ∈ heap ∨ x = item := by
  induction fuel with
  | zero =>
    intro heap s pos item out h x hx
    simp only [siftdownLoop] at h
    injection h with h
    subst h
    exact List.mem_or_eq_of_mem_set hx
  | succ fuel ih =>
    intro heap s pos item out h x hx
    simp only [siftdownLoop] at h
    by_cases hps : pos > s
    · rw [if_pos hps] at h
      rcases hlt : entryLt item (heap.getD ((pos - 1) / 2) defaultEntry) with e | b
      · rw [hlt] at h; cases h
      · rw [hlt] at h
        cases b
        · injection h with h
          subst h
          exact List.mem_or_eq_of_mem_set hx
        · by_cases hp : (pos - 1) / 2 < heap.length
          · rcases ih _ _ _ _ _ h x hx with hmem | rfl
            · rcases List.mem_or_eq_of_mem_set hmem with h1 | h1
              · exact .inl h1
              · exact .inl (h1 ▸ getD_mem_of_lt heap _ defaultEntry hp)
            · exact .inr rfl
          · have hd2 : (pos - 1) / 2 ≤ pos - 1 := Nat.div_le_self _ _
            have hset : heap.set pos (heap.getD ((pos - 1) / 2) defaultEntry) = heap :=
              List.set_eq_of_length_le (by omega)
            rw [hset] at h
            exact ih _ _ _ _ _ h x hx
    · rw [if_neg hps] at h
      injection h with h
      subst h
      exact List.mem_or_eq_of_mem_set hx

/-- A successful child selection picks a position below `endpos`. -/
lemma pickChild_lt (heap : List Entry) (endpos childpos cp : ℕ)
    (hc : childpos < endpos) (h : pickChild heap endpos childpos = .ok cp) :
    cp < endpos := by
  unfold pickChild at h
  by_cases hr : childpos + 1 < endpos
  · rw [if_pos hr] at h
    rcases hlt : entryLt (heap.getD childpos defaultEntry)
        (heap.getD (childpos + 1) defaultEntry) with e | b
    · rw [hlt] at h; cases h
    · rw [hlt] at h
      injection h with h
      subst h
      by_cases hb : b = true <;> simp [hb] <;> omega
  · rw [if_neg hr] at h
    injection h with h
    omega

/-- Every element of the list produced by `siftupLoop` was already in the
input heap or is the sifted item (the `endpos` bound keeps all child
reads in range, as in every call the search makes). -/
lemma siftupLoop_mem (fuel : ℕ) :
    ∀ (heap : List Entry) (startpos endpos pos : ℕ) (item : Entry) (out : List Entry),
      endpos ≤ heap.length →
      siftupLoop fuel heap startpos endpos pos item = .ok out →
      ∀ x ∈ out, x ∈ heap ∨ x = item := by
  induction fuel with
  | zero =>
    intro heap s ep pos item out _ h x hx
    simp only [siftupLoop] at h
    injection h with h
    subst h
    exact List.mem_or_eq_of_mem_set hx
  | succ fuel ih =>
    intro heap s ep pos item out hep h x hx
    simp only [siftupLoop] at h
    by_cases hc : 2 * pos + 1 < ep
    · rw [if_pos hc] at h
      rcases hpk : pickChild heap ep (2 * pos + 1) with e | cp
      · rw [hpk] at h; cases h
      · rw [hpk] at h
        have hcp : cp < ep := pickChild_lt heap ep _ _ hc hpk
        have hlen : ep ≤ (heap.set pos (heap.getD cp defaultEntry)).length := by
          rw [List.length_set]; exact hep
        rcases ih _ _ _ _ _ _ hlen h x hx with hmem | rfl
        · rcases List.mem_or_eq_of_mem_set hmem with h1 | h1
          · exact .inl h1
          · exact .inl (h1 ▸ getD_mem_of_lt heap _ defaultEntry (lt_of_lt_of_le hcp hep))
        · exact .inr rfl
    · rw [if_neg hc] at h
      exact siftdownLoop_mem _ _ _ _ _ _ h x hx

/-- `heappush` only adds the pushed item. -/
lemma heappush_mem (heap : List Entry) (item : Entry) (out : List Entry)
    (h : heappush heap item = .ok out) : ∀ x ∈ out, x ∈ heap ∨ x = item := by
  intro x hx
  rcases siftdownLoop_mem _ _ _ _ _ _ h x hx with hmem | rfl
  · rcases List.mem_append.mp hmem with h1 | h2
    · exact .inl h1
    · exact .inr (by simpa using h2)
  · exact .inr rfl

/-- `heappop` returns a member of the heap and keeps only members. -/
lemma heappop_mem (heap : List Entry) (ret : Entry) (out : List Entry)
    (h : heappop heap = .ok (ret, out)) :
    ret ∈ heap ∧ ∀ x ∈ out, x ∈ heap := by
  match heap with
  | [] => simp [heappop] at h
  | a :: t =>
    have hlast : (a :: t).getLastD defaultEntry ∈ a :: t := by
      rw [List.getLastD_eq_getLast?, List.getLast?_eq_getLast (a :: t) (by simp)]
      exact List.getLast_mem _
    have hdrop : (a :: t).dropLast ⊆ a :: t := List.dropLast_subset _
    simp only [heappop] at h
    rcases hrest : (a :: t).dropLast with _ | ⟨b, t2⟩ <;> rw [hrest] at h
    · injection h with h
      injection h with h1 h2
      subst h1; subst h2
      exact ⟨hlast, by simp⟩
    · rcases hsift : siftupLoop ((b :: t2).length + 1) ((b :: t2).set 0
          ((a :: t).getLastD defaultEntry)) 0 (b :: t2).length 0
          ((a :: t).getLastD defaultEntry) with e | heap3
      · rw [hsift] at h; cases h
      · rw [hsift] at h
        injection h with h
        injection h with h1 h2
        subst h1; subst h2
        constructor
        · exact hdrop (by rw [hrest]; exact List.mem_cons_self _ _)
        · intro x hx
          have hlen : (b :: t2).length ≤
              ((b :: t2).set 0 ((a :: t).getLastD defaultEntry)).length := by
            rw [List.length_set]
          rcases siftupLoop_mem _ _ _ _ _ _ _ hlen hsift x hx with hmem | rfl
          · rcases List.mem_or_eq_of_mem_set hmem with h1 | h1
            · exact hdrop (hrest ▸ h1)
            · exact h1 ▸ hlast
          · exact hlast

/-- Edges returned by the adjacency scan belong to the graph. -/
lemma get_edges_subset (g : Graph) (c : City) :
    ∀ e ∈ get_edges_from_city g c, e ∈ g.edges :=
  fun _ he => (List.mem_filter.mp he).1

/-- Every frontier entry after the edge loop was already in the frontier
or is an expansion of the popped entry. -/
lemma processEdges_mem (p : RoutePlanner) (target : City) (cur : Entry) :
    ∀ (edges : List Edge) (os : List Entry) (vis : VisitedMap)
      (os' : List Entry) (vis' : VisitedMap),
      (∀ e ∈ edges, e ∈ p.graph.edges) →
      processEdges p target cur edges os vis = .ok (os', vis') →
      ∀ x ∈ os', x ∈ os ∨ isExpansionOf p target cur x := by
  intro edges
  induction edges with
  | nil =>
    intro os vis os' vis' _ h x hx
    simp only [processEdges] at h
    injection h with h
    injection h with h1 h2
    subst h1
    exact .inl hx
  | cons edge rest ih =>
    intro os vis os' vis' hsub h x hx
    simp only [processEdges] at h
    rcases hoc : get_other_city edge cur.city with e | next_city <;> rw [hoc] at h
    · cases h
    · rcases hcalc : calculate_edge_time_and_fuel p.plane edge cur.fuel
          with e | ec <;> rw [hcalc] at h
      · cases h
      · cases ec with
        | infeasible =>
          exact ih os vis os' vis' (fun e he => hsub e (List.mem_cons_of_mem _ he)) h x hx
        | feasible time fuel_consumed =>
          dsimp only at h
          split at h
          · exact ih _ _ _ _ (fun e he => hsub e (List.mem_cons_of_mem _ he)) h x hx
          · rcases hpush : heappush os (expansionEntry p target cur next_city time
                fuel_consumed) with e | os2 <;> rw [hpush] at h
            · cases h
            · rcases ih _ _ _ _ (fun e he => hsub e (List.mem_cons_of_mem _ he)) h x hx
                  with h1 | h1
              · rcases heappush_mem os _ os2 hpush x h1 with h2 | rfl
                · exact .inl h2
                · exact .inr ⟨edge, hsub edge (List.mem_cons_self _ _), next_city, time,
                    fuel_consumed, hoc, hcalc, rfl⟩
              · exact .inr h1

/-- One continuing loop iteration preserves any entry property that is
preserved by expansion. -/
lemma searchStep_inv (p : RoutePlanner) (target : City) (P : Entry → Prop)
    (hstep : ∀ cur x, P cur → isExpansionOf p target cur x → P x)
    (os : List Entry) (vis : VisitedMap) (os' : List Entry) (vis' : VisitedMap)
    (h : searchStep p target os vis = .cont os' vis')
    (hP : ∀ e ∈ os, P e) : ∀ e ∈ os', P e := by
  cases os with
  | nil => simp only [searchStep] at h; cases h
  | cons a t =>
    simp only [searchStep] at h
    rcases hpop : heappop (a :: t) with e | ⟨cur, os1⟩ <;> rw [hpop] at h <;> dsimp only at h
    · cases h
    · obtain ⟨hcur, hsub1⟩ := heappop_mem _ _ _ hpop
      by_cases htgt : cityEq cur.city target = true
      · rw [if_pos htgt] at h; cases h
      · rw [if_neg htgt] at h
        rcases hpe : processEdges p target cur (get_edges_from_city p.graph cur.city) os1 vis
            with e | ⟨os2, vis2⟩ <;> rw [hpe] at h
        · cases h
        · injection h with h1 h2
          subst h1
          intro x hx
          rcases processEdges_mem p target cur _ _ _ _ _
              (get_edges_subset p.graph cur.city) hpe x hx with h1 | h1
          · exact hP x (hsub1 x h1)
          · exact hstep cur x (hP cur hcur) h1

/-- An entry property preserved by expansion holds of every frontier
entry in every reachable loop state. -/
lemma reachable_inv (p : RoutePlanner) (target : City) (P : Entry → Prop)
    (hstep : ∀ cur x, P cur → isExpansionOf p target cur x → P x)
    (s0 s : List Entry × VisitedMap) (h : ReachableFrom p target s0 s)
    (hP : ∀ e ∈ s0.1, P e) : ∀ e ∈ s.1, P e := by
  induction h with
  | refl => exact hP
  | tail _ hbc ih => exact searchStep_inv p target P hstep _ _ _ _ hbc ih

/-- Truncation toward zero never exceeds an integer bound sitting above
the argument. -/
lemma truncInt_le (q : ℚ) (n : ℤ) (h : q ≤ (n : ℚ)) : truncInt q ≤ n := by
  unfold truncInt
  split
  · have h2 := Int.floor_le_floor h
    rwa [Int.floor_intCast] at h2
  · exact Int.ceil_le.mpr h

/-- Truncation toward zero of a nonnegative value is nonnegative. -/
lemma truncInt_nonneg (q : ℚ) (h : 0 ≤ q) : 0 ≤ truncInt q := by
  unfold truncInt
  rw [if_pos h]
  exact Int.floor_nonneg.mpr h

/-- What a feasible edge evaluation tells us: the raw fuel need (distance
times effective consumption) was within the current fuel, and the
returned consumption is its truncation toward zero. -/
lemma calculate_feasible_inv (plane : Plane) (edge : Edge) (fuel : ℤ) (time : ℚ) (fc : ℤ)
    (h : calculate_edge_time_and_fuel plane edge fuel = .ok (.feasible time fc)) :
    edge.distance_km * (plane.fuel_consumption *
        (if edge.headwind then 12/10 else if edge.fairwind then 9/10 else 1)) ≤ (fuel : ℚ) ∧
      fc = truncInt (edge.distance_km * (plane.fuel_consumption *
        (if edge.headwind then 12/10 else if edge.fairwind then 9/10 else 1))) := by
  unfold calculate_edge_time_and_fuel at h
  by_cases hcl : edge.closed = true
  · rw [if_pos hcl] at h; exact absurd h (by simp)
  · rw [if_neg hcl] at h
    dsimp only at h
    by_cases hes : (plane.cruise_speed : ℚ) *
        (if edge.headwind then 8/10 else if edge.fairwind then 11/10 else 1) = 0
    · rw [if_pos hes] at h; exact absurd h (by simp)
    · rw [if_neg hes] at h
      by_cases hgt : edge.distance_km * (plane.fuel_consumption *
          (if edge.headwind then 12/10 else if edge.fairwind then 9/10 else 1)) > (fuel : ℚ)
      · rw [if_pos hgt] at h; exact absurd h (by simp)
      · rw [if_neg hgt] at h
        injection h with h
        injection h with h1 h2
        exact ⟨le_of_not_lt hgt, h2.symm⟩

/-- A `done` outcome of one loop iteration is either "No path found"
(empty frontier) or a built itinerary (target popped). -/
lemma searchStep_done (p : RoutePlanner) (target : City) (os : List Entry)
    (vis : VisitedMap) (r : SearchResult) (h : searchStep p target os vis = .done r) :
    r = .errNoPathFound ∨ ∃ res, r = .ok res := by
  cases os with
  | nil =>
    simp only [searchStep] at h
    injection h with h
    exact .inl h.symm
  | cons a t =>
    simp only [searchStep] at h
    rcases hpop : heappop (a :: t) with e | ⟨cur, os1⟩ <;> rw [hpop] at h <;> dsimp only at h
    · cases h
    · by_cases htgt : cityEq cur.city target = true
      · rw [if_pos htgt] at h
        injection h with h
        exact .inr ⟨_, h.symm⟩
      · rw [if_neg htgt] at h
        rcases hpe : processEdges p target cur (get_edges_from_city p.graph cur.city) os1 vis
            with e | ⟨os2, vis2⟩ <;> rw [hpe] at h
        · cases h
        · cases h

/-- The loop never reports "City not found": that error is issued only by
the pre-loop name lookups. -/
lemma searchLoop_ne_cityNotFound (p : RoutePlanner) (target : City) :
    ∀ (gas : ℕ) (os : List Entry) (vis : VisitedMap),
      searchLoop p target gas os vis ≠ .errCityNotFound := by
  intro gas
  induction gas with
  | zero => intro os vis h; simp only [searchLoop] at h; cases h
  | succ gas ih =>
    intro os vis h
    simp only [searchLoop] at h
    rcases hstep : searchStep p target os vis with r | ⟨os', vis'⟩ | e <;> rw [hstep] at h
    · rcases searchStep_done p target os vis r hstep with rfl | ⟨res, rfl⟩ <;> cases h
    · exact ih os' vis' h
    · cases h

/-- The distance loop of `_build_result` computes the spec-side sum. -/
lemma buildDistLoop_eq (edges : List Edge) :
    ∀ path : List City, buildDistLoop edges path = specTotalDistance edges path := by
  intro path
  induction path with
  | nil => rfl
  | cons c rest ih =>
    cases rest with
    | nil => rfl
    | cons c2 rest2 =>
      simp only [buildDistLoop, specTotalDistance, List.tail_cons, List.zip_cons_cons,
        List.map_cons, List.sum_cons] at ih ⊢
      rw [ih]

/-- C7: on success the itinerary is built from the winning state's path:
`total_time` is the accumulated time rounded to 2 decimals (half to
even), `total_distance` re-walks consecutive pairs summing the first
matching connection in declaration order and rounds to an integer,
`refuel_stops` lists every non-final path location whose fuel flag is
true regardless of fired refuels, and `refuel_count` is the branch's
counter — the last two computed independently, and indeed disagreeing on
the demo run (stops `["Moscow"]`, count `0`). -/
theorem build_result_spec :
    (∀ (p : RoutePlanner) (path : List City) (t : ℚ) (rc : ℕ),
      build_result p path t rc =
        { route := path.map (·.name)
        , total_time := round2 t
        , refuel_stops := (path.dropLast.filter (·.has_fuel)).map (·.name)
        , total_distance := pyRoundInt (specTotalDistance p.graph.edges path)
        , refuel_count := rc }) ∧
    (build_result demoPlanner [moscow, sochi] (21/10) 0).refuel_stops = ["Moscow"] ∧
    (build_result demoPlanner [moscow, sochi] (21/10) 0).refuel_count = 0 := by
  refine ⟨fun p path t rc => ?_, ?_, ?_⟩
  · unfold build_result
    rw [buildDistLoop_eq]
  · with_unfolding_all decide
  · with_unfolding_all decide

set_option maxRecDepth 10000 in
/-- C8: on the 5-city demonstration topology with the demonstration
plane, `a_star_search("Moscow", "Sochi")` succeeds with the direct
two-stop route over the headwind edge: total time 2.1 h, total distance
1360 km, refuel count 0 (and refuel-stop list `["Moscow"]`). -/
theorem demo_search_moscow_sochi :
    a_star_search demoPlanner "Moscow" "Sochi" 10 =
      .ok ⟨["Moscow", "Sochi"], 21/10, ["Moscow"], 1360, 0⟩ := by
  with_unfolding_all decide

set_option maxRecDepth 10000 in
/-- C1 (counter-evidence): on a topology with two symmetric open
connections the expansion of the start pushes two entries with equal `f`
and equal `g`; the heap then orders them by comparing the two `City`
values and the search raises `TypeError` instead of returning a value. -/
theorem a_star_search_tie_typeError :
    a_star_search tiePlanner "S" "A" 10 = .pyError .typeError := by
  with_unfolding_all decide

/-- C2 (counter-evidence): with a zero cruise speed the evaluator raises
`ZeroDivisionError` on an open edge instead of returning the
infeasibility sentinel; with a negative cruise speed it returns a
"feasible" negative traversal time instead of the sentinel. -/
theorem calculate_edge_zero_speed_division_fault :
    calculate_edge_time_and_fuel ⟨1000, 1, 0⟩ plainEdge 1000 =
        .error .zeroDivisionError ∧
      calculate_edge_time_and_fuel ⟨1000, 1, -100⟩ plainEdge 1000 =
        .ok (.feasible (-1) 100) := by
  exact ⟨by with_unfolding_all decide, by with_unfolding_all decide⟩

/-- C3: for an open connection the evaluator applies the wind multipliers
(headwind 0.80/1.20, fairwind 1.10/0.90, none 1/1); whenever the raw
fuel need `d * effective_consumption` is within the current fuel it
returns the time `d / effective_speed` ceiled to 0.1 h and the fuel need
truncated toward zero; in particular a windless edge with
`d * c ≤ tank_capacity` yields `(ceil10 (d / s), ⌊d * c⌋)` at a full
tank, independently of the tank size. -/
theorem calculate_edge_open_feasible_spec :
    (∀ (plane : Plane) (edge : Edge) (F : ℤ),
      edge.closed = false → 0 < plane.cruise_speed →
      edge.distance_km * (plane.fuel_consumption *
          (if edge.headwind then 12/10 else if edge.fairwind then 9/10 else 1)) ≤ (F : ℚ) →
      calculate_edge_time_and_fuel plane edge F =
        .ok (.feasible
          (ceil10 (edge.distance_km / ((plane.cruise_speed : ℚ) *
            (if edge.headwind then 8/10 else if edge.fairwind then 11/10 else 1))))
          (truncInt (edge.distance_km * (plane.fuel_consumption *
            (if edge.headwind then 12/10 else if edge.fairwind then 9/10 else 1)))))) ∧
    (∀ (plane : Plane) (edge : Edge),
      edge.closed = false → edge.headwind = false → edge.fairwind = false →
      0 < plane.cruise_speed → 0 ≤ edge.distance_km * plane.fuel_consumption →
      edge.distance_km * plane.fuel_consumption ≤ (plane.tank_capacity : ℚ) →
      calculate_edge_time_and_fuel plane edge plane.tank_capacity =
        .ok (.feasible (ceil10 (edge.distance_km / (plane.cruise_speed : ℚ)))
          (⌊edge.distance_km * plane.fuel_consumption⌋))) := by
  have key : ∀ (plane : Plane) (edge : Edge) (F : ℤ),
      edge.closed = false → 0 < plane.cruise_speed →
      edge.distance_km * (plane.fuel_consumption *
          (if edge.headwind then 12/10 else if edge.fairwind then 9/10 else 1)) ≤ (F : ℚ) →
      calculate_edge_time_and_fuel plane edge F =
        .ok (.feasible
          (ceil10 (edge.distance_km / ((plane.cruise_speed : ℚ) *
            (if edge.headwind then 8/10 else if edge.fairwind then 11/10 else 1))))
          (truncInt (edge.distance_km * (plane.fuel_consumption *
            (if edge.headwind then 12/10 else if edge.fairwind then 9/10 else 1))))) := by
    intro plane edge F hcl hs hle
    have hsm : (0:ℚ) < (if edge.headwind then 8/10 else if edge.fairwind then 11/10 else 1) := by
      split
      · norm_num
      · split <;> norm_num
    have hes : (plane.cruise_speed : ℚ) *
        (if edge.headwind then 8/10 else if edge.fairwind then 11/10 else 1) ≠ 0 := by
      have hsq : (0:ℚ) < (plane.cruise_speed : ℚ) := by exact_mod_cast hs
      exact ne_of_gt (mul_pos hsq hsm)
    unfold calculate_edge_time_and_fuel
    rw [if_neg (by simp [hcl])]
    dsimp only
    rw [if_neg hes, if_neg (not_lt.mpr hle)]
  constructor
  · exact key
  · intro plane edge hcl hh hf hs h0 hle
    have h := key plane edge plane.tank_capacity hcl hs (by simpa [hh, hf] using hle)
    rw [h]
    simp [truncInt, hh, hf, h0]

/-- C9: when both wind flags are raised the `elif` gives the headwind
multipliers precedence; the evaluation coincides with that of the same
connection with the fairwind flag cleared, and on an open edge with
sufficient fuel it returns the headwind formula (speed ×0.80,
consumption ×1.20). -/
theorem both_wind_flags_headwind_precedence :
    (∀ (plane : Plane) (edge : Edge) (F : ℤ),
      edge.headwind = true → edge.fairwind = true →
      calculate_edge_time_and_fuel plane edge F =
        calculate_edge_time_and_fuel plane { edge with fairwind := false } F) ∧
    (∀ (plane : Plane) (edge : Edge) (F : ℤ),
      edge.headwind = true → edge.fairwind = true → edge.closed = false →
      0 < plane.cruise_speed →
      edge.distance_km * (plane.fuel_consumption * (12/10)) ≤ (F : ℚ) →
      calculate_edge_time_and_fuel plane edge F =
        .ok (.feasible
          (ceil10 (edge.distance_km / ((plane.cruise_speed : ℚ) * (8/10))))
          (truncInt (edge.distance_km * (plane.fuel_consumption * (12/10)))))) := by
  constructor
  · intro plane edge F hh _
    simp only [calculate_edge_time_and_fuel, hh, if_true]
  · intro plane edge F hh _ hcl hs hle
    have hsq : (0:ℚ) < (plane.cruise_speed : ℚ) := by exact_mod_cast hs
    have hes : (plane.cruise_speed : ℚ) * (8/10) ≠ 0 := by positivity
    unfold calculate_edge_time_and_fuel
    rw [if_neg (by simp [hcl])]
    simp only [hh, if_true]
    rw [if_neg hes, if_neg (not_lt.mpr hle)]

/-- C6: the heuristic the search attaches to every frontier entry is the
ceiled haversine distance from the entry's location to the target
divided by the baseline cruise speed (no wind multiplier): in every
reachable loop state, each entry satisfies `f = g + h(city)`. -/
theorem heuristic_invariant :
    ∀ (p : RoutePlanner) (start_city target_city : City)
      (s : List Entry × VisitedMap),
      ReachableFrom p target_city (initState p start_city target_city) s →
      ∀ e ∈ s.1, e.f = e.g +
        (haversine_distance p e.city target_city : ℚ) / (p.plane.cruise_speed : ℚ) := by
  intro p sc tc s hreach
  have hstep : ∀ cur x, (cur.f = cur.g + hScoreOf p cur.city tc) →
      isExpansionOf p tc cur x → (x.f = x.g + hScoreOf p x.city tc) := by
    intro cur x _ hexp
    obtain ⟨edge, _, next, time, fc, _, _, rfl⟩ := hexp
    rfl
  have h0 : ∀ e ∈ (initState p sc tc).1, e.f = e.g + hScoreOf p e.city tc := by
    intro e he
    simp only [initState, List.mem_singleton] at he
    subst he
    rfl
  exact reachable_inv p tc (fun e => e.f = e.g + hScoreOf p e.city tc) hstep _ s hreach h0

set_option maxRecDepth 10000 in
/-- C6 witness: the initial frontier entry of the demonstration search
satisfies the invariant. -/
theorem heuristic_invariant_witness :
    (⟨1362/841, 0, moscow, 16000, [moscow], 0⟩ : Entry).f =
      (⟨1362/841, 0, moscow, 16000, [moscow], 0⟩ : Entry).g +
      (haversine_distance demoPlanner moscow sochi : ℚ) /
        (demoPlanner.plane.cruise_speed : ℚ) :=
  heuristic_invariant demoPlanner moscow sochi (initState demoPlanner moscow sochi)
    Relation.ReflTransGen.refl ⟨1362/841, 0, moscow, 16000, [moscow], 0⟩
    (by
        unfold initState
        dsimp only
        rw [show (⟨1362/841, 0, moscow, 16000, [moscow], 0⟩ : Entry) =
          ⟨0 + hScoreOf demoPlanner moscow sochi, 0, moscow,
            demoPlanner.plane.tank_capacity, [moscow], 0⟩ from by with_unfolding_all rfl]
        exact List.mem_singleton_self _)

/-- C10: a feasible edge evaluation never reports more consumed fuel than
the current fuel (raw need checked before truncation toward zero), and
consequently — with a nonnegative tank capacity — every frontier entry
of every reachable loop state of a search (which starts with a full
tank) carries nonnegative remaining fuel. -/
theorem fuel_nonneg_invariant :
    (∀ (plane : Plane) (edge : Edge) (fuel : ℤ) (time : ℚ) (fc : ℤ),
      calculate_edge_time_and_fuel plane edge fuel = .ok (.feasible time fc) →
      fc ≤ fuel) ∧
    (∀ (p : RoutePlanner) (start_city target_city : City)
       (s : List Entry × VisitedMap),
      0 ≤ p.plane.tank_capacity →
      ReachableFrom p target_city (initState p start_city target_city) s →
      ∀ e ∈ s.1, 0 ≤ e.fuel) := by
  constructor
  · intro plane edge fuel time fc h
    obtain ⟨hle, hfc⟩ := calculate_feasible_inv plane edge fuel time fc h
    exact hfc ▸ truncInt_le _ _ hle
  · intro p sc tc s hcap hreach
    refine reachable_inv p tc (fun e => 0 ≤ e.fuel) ?_ _ s hreach ?_
    · intro cur x _ hexp
      obtain ⟨edge, _, next, time, fc, _, hcalc, rfl⟩ := hexp
      obtain ⟨hle, hfc⟩ := calculate_feasible_inv _ _ _ _ _ hcalc
      show 0 ≤ (expansionEntry p tc cur next time fc).fuel
      dsimp only [expansionEntry]
      unfold transition
      dsimp only
      split
      · exact hcap
      · exact sub_nonneg.mpr (hfc ▸ truncInt_le _ _ hle)
    · intro e he
      simp only [initState, List.mem_singleton] at he
      subst he
      exact hcap

set_option maxRecDepth 10000 in
/-- C10 witness: a concrete feasible evaluation consumes at most the
current fuel, and the initial demonstration frontier entry has
nonnegative fuel. -/
theorem fuel_nonneg_invariant_witness :
    ((100 : ℤ) ≤ 1000) ∧
      (0 : ℤ) ≤ (⟨1362/841, 0, moscow, 16000, [moscow], 0⟩ : Entry).fuel :=
  ⟨fuel_nonneg_invariant.1 ⟨1000, 1, 100⟩ plainEdge 1000 1 100
      (by with_unfolding_all decide),
    fuel_nonneg_invariant.2 demoPlanner moscow sochi
      (initState demoPlanner moscow sochi) (by with_unfolding_all decide)
      Relation.ReflTransGen.refl ⟨1362/841, 0, moscow, 16000, [moscow], 0⟩
      (by
        unfold initState
        dsimp only
        rw [show (⟨1362/841, 0, moscow, 16000, [moscow], 0⟩ : Entry) =
          ⟨0 + hScoreOf demoPlanner moscow sochi, 0, moscow,
            demoPlanner.plane.tank_capacity, [moscow], 0⟩ from by with_unfolding_all rfl]
        exact List.mem_singleton_self _)⟩

/-- C4: when a transition reaches a city with fuel availability and the
post-transition fuel is strictly below tank capacity, the mandatory
refuel adds exactly 0.5 h, sets fuel to exactly the tank capacity, and
increments the branch's refuel counter by one; and — for nonnegative
consumption and edge distances — every frontier entry of every
reachable loop state keeps its fuel at or below tank capacity. -/
theorem refuel_and_capacity_invariant :
    (∀ (plane : Plane) (next_city : City) (time : ℚ) (fuel_consumed : ℤ)
       (g : ℚ) (fuel : ℤ) (rc : ℕ),
      next_city.has_fuel = true → fuel - fuel_consumed < plane.tank_capacity →
      transition plane next_city time fuel_consumed g fuel rc =
        (g + time + 1/2, plane.tank_capacity, rc + 1)) ∧
    (∀ (p : RoutePlanner) (start_city target_city : City)
       (s : List Entry × VisitedMap),
      0 ≤ p.plane.fuel_consumption →
      (∀ e ∈ p.graph.edges, 0 ≤ e.distance_km) →
      ReachableFrom p target_city (initState p start_city target_city) s →
      ∀ e ∈ s.1, e.fuel ≤ p.plane.tank_capacity) := by
  constructor
  · intro plane next_city time fuel_consumed g fuel rc hfuel hlt
    unfold transition
    rw [if_pos ⟨hfuel, hlt⟩]
  · intro p sc tc s hcons hdist hreach
    refine reachable_inv p tc (fun e => e.fuel ≤ p.plane.tank_capacity) ?_ _ s hreach ?_
    · intro cur x hcur hexp
      obtain ⟨edge, hedge, next, time, fc, _, hcalc, rfl⟩ := hexp
      obtain ⟨_, hfc⟩ := calculate_feasible_inv _ _ _ _ _ hcalc
      have hfm : (0:ℚ) ≤ (if edge.headwind then 12/10 else if edge.fairwind then 9/10 else 1) := by
        split
        · norm_num
        · split <;> norm_num
      have hfc0 : 0 ≤ fc := by
        rw [hfc]
        exact truncInt_nonneg _ (mul_nonneg (hdist edge hedge) (mul_nonneg hcons hfm))
      show (expansionEntry p tc cur next time fc).fuel ≤ p.plane.tank_capacity
      dsimp only [expansionEntry]
      unfold transition
      dsimp only
      split
      · exact le_refl _
      · exact le_trans (sub_le_self _ hfc0) hcur
    · intro e he
      simp only [initState, List.mem_singleton] at he
      subst he
      exact le_refl _

set_option maxRecDepth 10000 in
/-- C4 witness: a concrete refuel transition (arrival at Moscow with
14900 L of a 16000 L tank) and the capacity bound on the initial
demonstration frontier entry. -/
theorem refuel_and_capacity_invariant_witness :
    (transition demoPlane moscow (8/10) 100 0 15000 0 =
        (0 + 8/10 + 1/2, demoPlane.tank_capacity, 0 + 1)) ∧
      (⟨1362/841, 0, moscow, 16000, [moscow], 0⟩ : Entry).fuel ≤
        demoPlanner.plane.tank_capacity :=
  ⟨refuel_and_capacity_invariant.1 demoPlane moscow (8/10) 100 0 15000 0
      (by with_unfolding_all decide) (by with_unfolding_all decide),
    refuel_and_capacity_invariant.2 demoPlanner moscow sochi
      (initState demoPlanner moscow sochi) (by with_unfolding_all decide)
      (by with_unfolding_all decide)
      Relation.ReflTransGen.refl ⟨1362/841, 0, moscow, 16000, [moscow], 0⟩
      (by
        unfold initState
        dsimp only
        rw [show (⟨1362/841, 0, moscow, 16000, [moscow], 0⟩ : Entry) =
          ⟨0 + hScoreOf demoPlanner moscow sochi, 0, moscow,
            demoPlanner.plane.tank_capacity, [moscow], 0⟩ from by with_unfolding_all rfl]
        exact List.mem_singleton_self _)⟩

set_option maxRecDepth 10000 in
/-- C5: the search reports "City not found" exactly when the start or the
target name is absent from the graph's city map; an iteration of the
loop reports "No path found" exactly when the frontier is empty (so the
error means the frontier was exhausted without popping the target); and
concretely both the single-closed-connection topology and the
single-connection topology whose fuel need exceeds the tank produce
"No path found". -/
theorem search_error_conditions :
    (∀ (p : RoutePlanner) (s t : String) (gas : ℕ),
      a_star_search p s t gas = .errCityNotFound ↔
        (findCity p.graph s = none ∨ findCity p.graph t = none)) ∧
    (∀ (p : RoutePlanner) (target : City) (os : List Entry) (vis : VisitedMap),
      searchStep p target os vis = .done .errNoPathFound ↔ os = []) ∧
    a_star_search closedPlanner "S" "A" 10 = .errNoPathFound ∧
    a_star_search lowFuelPlanner "S" "A" 10 = .errNoPathFound := by
  refine ⟨?_, ?_, by with_unfolding_all decide, by with_unfolding_all decide⟩
  · intro p s t gas
    constructor
    · intro h
      unfold a_star_search at h
      rcases hfs : findCity p.graph s with _ | sc
      · exact .inl rfl
      · rcases hft : findCity p.graph t with _ | tc
        · exact .inr rfl
        · rw [hfs, hft] at h
          dsimp only at h
          by_cases hcs : p.plane.cruise_speed = 0
          · rw [if_pos hcs] at h; cases h
          · rw [if_neg hcs] at h
            exact absurd h (searchLoop_ne_cityNotFound p tc gas _ _)
    · intro h
      unfold a_star_search
      rcases h with h | h
      · rw [h]
      · rw [h]
        rcases findCity p.graph s with _ | sc <;> rfl
  · intro p target os vis
    constructor
    · intro h
      cases os with
      | nil => rfl
      | cons a t =>
        simp only [searchStep] at h
        rcases hpop : heappop (a :: t) with e | ⟨cur, os1⟩ <;> rw [hpop] at h <;>
          dsimp only at h
        · cases h
        · by_cases htgt : cityEq cur.city target = true
          · rw [if_pos htgt] at h
            injection h with h
            exact absurd h (by simp)
          · rw [if_neg htgt] at h
            rcases hpe : processEdges p target cur
                (get_edges_from_city p.graph cur.city) os1 vis
                with e | ⟨os2, vis2⟩ <;> rw [hpe] at h
            · cases h
            · cases h
    · intro h
      subst h
      rfl

/-- C3 witness: the demonstration headwind edge at a full 16000 L tank
is feasible and gets the headwind multipliers, the 0.1-hour ceiling and
the truncation. -/
theorem calculate_edge_open_feasible_spec_witness :
    calculate_edge_time_and_fuel demoPlane hwEdge 16000 =
      .ok (.feasible
        (ceil10 (hwEdge.distance_km / ((demoPlane.cruise_speed : ℚ) *
          (if hwEdge.headwind then 8/10 else if hwEdge.fairwind then 11/10 else 1))))
        (truncInt (hwEdge.distance_km * (demoPlane.fuel_consumption *
          (if hwEdge.headwind then 12/10 else if hwEdge.fairwind then 9/10 else 1))))) :=
  calculate_edge_open_feasible_spec.1 demoPlane hwEdge 16000 rfl (by decide)
    (by with_unfolding_all decide)

/-- C9 witness: a both-flags edge evaluates like its fairwind-cleared
copy and gets the headwind formula. -/
theorem both_wind_flags_headwind_precedence_witness :
    (calculate_edge_time_and_fuel wPlane bothEdge 1000 =
        calculate_edge_time_and_fuel wPlane { bothEdge with fairwind := false } 1000) ∧
      calculate_edge_time_and_fuel wPlane bothEdge 1000 =
        .ok (.feasible (ceil10 (bothEdge.distance_km / ((wPlane.cruise_speed : ℚ) * (8/10))))
          (truncInt (bothEdge.distance_km * (wPlane.fuel_consumption * (12/10))))) :=
  ⟨both_wind_flags_headwind_precedence.1 wPlane bothEdge 1000 rfl rfl,
    both_wind_flags_headwind_precedence.2 wPlane bothEdge 1000 rfl rfl rfl (by decide)
      (by with_unfolding_all decide)⟩
